import Mathlib

/-!
Shallow embedding of the track-processing pipeline of the
`paragliding_flight_crawler` repository, together with theorems settling
the specification claims about it.

Numeric values carried by the program (timestamps, coordinates, speeds)
are modelled as real numbers; the structural layers (line handling,
fixed-width field parsing) are modelled over `String` / `List Char` and
`Nat`, exactly following `src/convert_igc_to_npz.py` and
`src/compute_polar.py`.
-/

namespace FlightPolar

/-- One speed sample, a row of the 2-column `speeds` array produced by
`tenu2speeds` in `src/compute_polar.py`: column 0 is the horizontal
speed, column 1 the (signed) vertical speed. -/
structure Speed where
  h : ℝ
  v : ℝ

/-- The horizontal-validity mask entry of `cleans`
(`valid_h = speeds[0] < 30` in `src/compute_polar.py`, line 60). -/
noncomputable def validH (s : Speed) : Bool := decide (s.h < 30)

/-- The vertical-validity mask entry of `cleans`
(`valid_v = np.abs(speeds[1]) < 20`, line 62). -/
noncomputable def validV (s : Speed) : Bool := decide (|s.v| < 20)

/-- Boolean-mask row selection `arr[mask, :]` used by `cleans`:
keep the rows whose mask entry is `true`. -/
def maskSelect : List Speed → List Bool → List Speed
  | x :: xs, b :: bs => if b then x :: maskSelect xs bs else maskSelect xs bs
  | _, _ => []

/-- Model of `cleans` from `src/compute_polar.py` (lines 56-66): build the two
validity masks column-wise, combine them with `np.logical_and(valid_v,
valid_h)` and select the surviving rows. -/
noncomputable def cleans (speeds : List Speed) : List Speed :=
  maskSelect speeds
    (List.zipWith (fun bv bh => bv && bh) (speeds.map validV) (speeds.map validH))

lemma cleans_eq_filter (l : List Speed) :
    cleans l = l.filter fun s => decide (s.h < 30 ∧ |s.v| < 20) := by
  induction l with
  | nil => rfl
  | cons x xs ih =>
    have hmask : (validV x && validH x) = decide (x.h < 30 ∧ |x.v| < 20) := by
      simp [validV, validH, Bool.decide_and, Bool.and_comm]
    simp only [cleans, List.map_cons, List.zipWith_cons_cons, maskSelect,
      List.filter_cons, hmask]
    cases hd : decide (x.h < 30 ∧ |x.v| < 20) with
    | false => simpa [cleans] using ih
    | true => simpa [cleans] using ih

/-- C1: the outlier filter retains exactly the samples with
`horizontal_speed < 30` and `|vertical_speed| < 20` (strict bounds), and
its output is an order-preserving subsequence of its input in which every
retained sample is unchanged. -/
theorem c1_cleans_eq_filter_and_sublist (l : List Speed) :
    cleans l = (l.filter fun s => decide (s.h < 30 ∧ |s.v| < 20)) ∧
      (cleans l).Sublist l := by
  refine ⟨cleans_eq_filter l, ?_⟩
  rw [cleans_eq_filter l]
  exact List.filter_sublist l

/-- One row of the `tenu` array of `src/compute_polar.py`: column 0 the
(smoothed) timestamp, columns 1-3 the local east/north/up coordinates. -/
structure Tenu where
  t : ℝ
  e : ℝ
  n : ℝ
  u : ℝ

/-- Model of `tenu2speeds` from `src/compute_polar.py` (lines 46-53):
`deltas = tenu[1:] - tenu[0:-1]`, then
`speed_h = np.linalg.norm(deltas[1:3], axis=0) / deltas[0]` and
`speed_v = deltas[3] / deltas[0]`, stacked into rows `(speed_h, speed_v)`.
There is no check on the sign of the time delta; every consecutive pair
contributes a row. -/
noncomputable def tenu2speeds (l : List Tenu) : List Speed :=
  List.zipWith
    (fun b a =>
      { h := Real.sqrt ((b.e - a.e) ^ 2 + (b.n - a.n) ^ 2) / (b.t - a.t)
        v := (b.u - a.u) / (b.t - a.t) })
    (l.drop 1) l

lemma tenu2speeds_length (l : List Tenu) :
    (tenu2speeds l).length = l.length - 1 := by
  simp [tenu2speeds]

lemma tenu2speeds_get? (l : List Tenu) (i : ℕ) (a b : Tenu)
    (ha : l[i]? = some a) (hb : l[i + 1]? = some b) :
    (tenu2speeds l)[i]? =
      some { h := Real.sqrt ((b.e - a.e) ^ 2 + (b.n - a.n) ^ 2) / (b.t - a.t)
             v := (b.u - a.u) / (b.t - a.t) } := by
  rw [tenu2speeds, List.getElem?_zipWith', List.getElem?_drop, Nat.add_comm 1 i, hb, ha]
  rfl

/-- C3: on a smoothed local track of length `n ≥ 2` whose consecutive time
deltas are positive, the speed estimator yields exactly `n - 1` samples,
and sample `i` (for the pair of samples `i` and `i+1`) is
`(sqrt (Δe^2 + Δn^2) / Δt, Δu / Δt)` with `Δt = t[i+1] - t[i]`. -/
theorem c3_tenu2speeds_formula (l : List Tenu) (i : ℕ) (a b : Tenu)
    (hlen : 2 ≤ l.length) (ha : l[i]? = some a) (hb : l[i + 1]? = some b)
    (hdt : a.t < b.t) :
    (tenu2speeds l).length = l.length - 1 ∧
      (tenu2speeds l)[i]? =
        some { h := Real.sqrt ((b.e - a.e) ^ 2 + (b.n - a.n) ^ 2) / (b.t - a.t)
               v := (b.u - a.u) / (b.t - a.t) } :=
  ⟨tenu2speeds_length l, tenu2speeds_get? l i a b ha hb⟩

/-- Witness for C3 at the concrete two-sample track
`[(0,0,0,0), (1,3,4,12)]`, index `0`. -/
theorem c3_tenu2speeds_formula_witness :
    (2 ≤ ([Tenu.mk 0 0 0 0, Tenu.mk 1 3 4 12] : List Tenu).length ∧
        ([Tenu.mk 0 0 0 0, Tenu.mk 1 3 4 12] : List Tenu)[0]? = some (Tenu.mk 0 0 0 0) ∧
        ([Tenu.mk 0 0 0 0, Tenu.mk 1 3 4 12] : List Tenu)[0 + 1]? = some (Tenu.mk 1 3 4 12) ∧
        (Tenu.mk 0 0 0 0).t < (Tenu.mk 1 3 4 12).t) ∧
      ((tenu2speeds [Tenu.mk 0 0 0 0, Tenu.mk 1 3 4 12]).length =
          ([Tenu.mk 0 0 0 0, Tenu.mk 1 3 4 12] : List Tenu).length - 1 ∧
        (tenu2speeds [Tenu.mk 0 0 0 0, Tenu.mk 1 3 4 12])[0]? =
          some { h := Real.sqrt (((Tenu.mk 1 3 4 12).e - (Tenu.mk 0 0 0 0).e) ^ 2 +
                      ((Tenu.mk 1 3 4 12).n - (Tenu.mk 0 0 0 0).n) ^ 2) /
                      ((Tenu.mk 1 3 4 12).t - (Tenu.mk 0 0 0 0).t)
                 v := ((Tenu.mk 1 3 4 12).u - (Tenu.mk 0 0 0 0).u) /
                      ((Tenu.mk 1 3 4 12).t - (Tenu.mk 0 0 0 0).t) }) :=
  ⟨⟨by decide, rfl, rfl, by norm_num⟩,
    c3_tenu2speeds_formula [Tenu.mk 0 0 0 0, Tenu.mk 1 3 4 12] 0
      (Tenu.mk 0 0 0 0) (Tenu.mk 1 3 4 12) (by decide) rfl rfl (by norm_num)⟩

/-- A two-sample track whose time delta is zero: the claimed
`NonMonotonicTime` failure does not exist in the code; `tenu2speeds`
still emits one speed sample for this pair (in the source, NumPy performs
the division by the zero delta and produces a non-finite value instead of
raising). This refutes C4 as stated. -/
theorem c4_counterexample_no_time_check :
    (tenu2speeds [Tenu.mk 0 0 0 0, Tenu.mk 0 3 4 5]).length = 1 := by
  decide

/-- C4 (amended): the speed estimator performs no time-monotonicity
check; for every smoothed track, including ones containing pairs with
`Δt ≤ 0`, it totally produces `n - 1` speed samples (the division by the
non-positive `Δt` is performed rather than reported as an error). -/
theorem c4_tenu2speeds_total_amended (l : List Tenu) :
    (tenu2speeds l).length = l.length - 1 :=
  tenu2speeds_length l

/-- Model of `np.convolve(c, np.ones(k)/k, mode='valid')` for a channel `c` and
the uniform kernel of width `k` (both non-empty).  NumPy's `'valid'` mode
emits `max(n,k) - min(n,k) + 1` points: when `k ≤ n` these are the
averages of the `k`-wide fully-overlapping windows; when `k > n` the
shorter signal slides inside the kernel and every point equals
`c.sum / k`. -/
noncomputable def movingAvg (c : List ℝ) (k : ℕ) : List ℝ :=
  if k ≤ c.length then
    (List.range (c.length - k + 1)).map fun i => ((c.drop i).take k).sum / k
  else
    (List.range (k - c.length + 1)).map fun _ => c.sum / k

/-- Recombine the four convolved channels into rows
(`np.vstack([...]).transpose()` in `smooth`). -/
def zip4 (a b c d : List ℝ) : List Tenu :=
  List.zipWith (fun x yzw => ⟨x, yzw.1, yzw.2.1, yzw.2.2⟩) a
    (List.zipWith (fun y zw => (y, zw.1, zw.2)) b (List.zipWith Prod.mk c d))

/-- Model of `smooth` from `src/compute_polar.py` (lines 69-76): convolve each of
the four channels (time, east, north, up) with the uniform kernel
`np.ones(k)/k` in `'valid'` mode and re-stack the rows.  An empty input
array or an empty kernel (`k = 0`) makes `np.convolve` raise, modelled as
`none`. -/
noncomputable def smooth (l : List Tenu) (k : ℕ) : Option (List Tenu) :=
  if l.length = 0 ∨ k = 0 then none
  else
    some (zip4 (movingAvg (l.map Tenu.t) k) (movingAvg (l.map Tenu.e) k)
      (movingAvg (l.map Tenu.n) k) (movingAvg (l.map Tenu.u) k))

lemma movingAvg_length_of_le (c : List ℝ) (k : ℕ) (hk : k ≤ c.length) :
    (movingAvg c k).length = c.length - k + 1 := by
  simp [movingAvg, hk]

lemma movingAvg_length_of_gt (c : List ℝ) (k : ℕ) (hk : c.length < k) :
    (movingAvg c k).length = k - c.length + 1 := by
  simp [movingAvg, Nat.not_le.mpr hk]

lemma zip4_length (a b c d : List ℝ) :
    (zip4 a b c d).length = min a.length (min b.length (min c.length d.length)) := by
  simp [zip4]

/-- Counterexample to C2: on a two-row track with window `k = 3 > 2`, the
code does not fail: `np.convolve`'s `'valid'` mode emits
`k - n + 1 = 2` rows (each channel the average of the whole signal), so
`smooth` produces output instead of an `InsufficientSamples` error. -/
theorem c2_counterexample_smooth_k_gt_n :
    smooth [Tenu.mk 0 0 0 0, Tenu.mk 1 0 0 0] 3 ≠ none ∧
      (smooth [Tenu.mk 0 0 0 0, Tenu.mk 1 0 0 0] 3).map List.length = some 2 := by
  constructor
  · simp [smooth]
  · simp [smooth, zip4_length, movingAvg_length_of_gt]

/-- C2 (amended): for every window size `1 ≤ k ≤ n` the smoother emits
exactly `n - k + 1` rows, each of the four channels having length
`n - k + 1` (valid-convolution semantics, no padding); but for `k > n` it
does not fail with `InsufficientSamples`: as long as the track is
non-empty it emits `k - n + 1` rows (NumPy's symmetric `'valid'`
convolution). -/
theorem c2_smooth_length_amended (l : List Tenu) (k : ℕ)
    (hk1 : 1 ≤ k) (hkn : k ≤ l.length) :
    (movingAvg (l.map Tenu.t) k).length = l.length - k + 1 ∧
      (movingAvg (l.map Tenu.e) k).length = l.length - k + 1 ∧
      (movingAvg (l.map Tenu.n) k).length = l.length - k + 1 ∧
      (movingAvg (l.map Tenu.u) k).length = l.length - k + 1 ∧
      (smooth l k).map List.length = some (l.length - k + 1) := by
  have hmap : ∀ f : Tenu → ℝ, (movingAvg (l.map f) k).length = l.length - k + 1 := by
    intro f
    rw [movingAvg_length_of_le _ _ (by simpa using hkn), List.length_map]
  refine ⟨hmap _, hmap _, hmap _, hmap _, ?_⟩
  have hne : ¬(l.length = 0 ∨ k = 0) := by omega
  rw [smooth, if_neg hne, Option.map_some']
  simp [zip4_length, hmap]

/-- Witness for C2 (amended) at a concrete three-row track with `k = 2`. -/
theorem c2_smooth_length_amended_witness :
    (1 ≤ 2 ∧ 2 ≤ ([Tenu.mk 0 0 0 0, Tenu.mk 1 0 0 0, Tenu.mk 2 0 0 0] : List Tenu).length) ∧
      (smooth [Tenu.mk 0 0 0 0, Tenu.mk 1 0 0 0, Tenu.mk 2 0 0 0] 2).map List.length =
        some (([Tenu.mk 0 0 0 0, Tenu.mk 1 0 0 0, Tenu.mk 2 0 0 0] : List Tenu).length - 2 + 1) :=
  ⟨⟨by decide, by decide⟩,
    (c2_smooth_length_amended [Tenu.mk 0 0 0 0, Tenu.mk 1 0 0 0, Tenu.mk 2 0 0 0] 2
      (by decide) (by decide)).2.2.2.2⟩

/-- One decoded fix, a row of the array produced by
`convert_igc_to_array` in `src/convert_igc_to_npz.py`: columns are
`[timestamp, longitude, latitude, altitude, pressure]`. -/
structure Fix where
  t : ℝ
  lon : ℝ
  lat : ℝ
  alt : ℝ
  press : ℝ

/-- WGS84 semi-major axis (pymap3d's default ellipsoid). -/
def wgsA : ℝ := 6378137

/-- WGS84 semi-minor axis (pymap3d's default ellipsoid). -/
noncomputable def wgsB : ℝ := 6356752.31424518

/-- Computational core of pymap3d's `geodetic2ecef` on the WGS84
ellipsoid, angles in degrees:
`N = a^2 / sqrt(a^2 cos^2 φ + b^2 sin^2 φ)`,
`x = (N + h) cos φ cos λ`, `y = (N + h) cos φ sin λ`,
`z = (N (b/a)^2 + h) sin φ`. -/
noncomputable def ecefCore (lat lon h : ℝ) : ℝ × ℝ × ℝ :=
  let phi := lat * (Real.pi / 180)
  let lam := lon * (Real.pi / 180)
  let N := wgsA ^ 2 / Real.sqrt (wgsA ^ 2 * Real.cos phi ^ 2 + wgsB ^ 2 * Real.sin phi ^ 2)
  ((N + h) * Real.cos phi * Real.cos lam,
    (N + h) * Real.cos phi * Real.sin lam,
    (N * (wgsB / wgsA) ^ 2 + h) * Real.sin phi)

/-- pymap3d's `geodetic2ecef`: `sanitize` first range-checks the
latitude argument, raising `ValueError` unless it lies within
`[-pi/2, pi/2]` radians — `|lat| ≤ 90` in degrees — and only then are
the ECEF coordinates computed.  The raise is modelled as `none`.
External-library collaborator of `lla2enu`. -/
noncomputable def geodetic2ecef (lat lon h : ℝ) : Option (ℝ × ℝ × ℝ) :=
  if |lat| ≤ 90 then some (ecefCore lat lon h) else none

/-- Unchecked arithmetic of pymap3d's `geodetic2enu`: ECEF difference
against the reference point, rotated into the local east/north/up frame
of the reference. -/
noncomputable def enuCore (lat lon h lat0 lon0 h0 : ℝ) : ℝ × ℝ × ℝ :=
  let p := ecefCore lat lon h
  let p0 := ecefCore lat0 lon0 h0
  let dx := p.1 - p0.1
  let dy := p.2.1 - p0.2.1
  let dz := p.2.2 - p0.2.2
  let phi0 := lat0 * (Real.pi / 180)
  let lam0 := lon0 * (Real.pi / 180)
  (-Real.sin lam0 * dx + Real.cos lam0 * dy,
    -(Real.sin phi0 * Real.cos lam0) * dx - Real.sin phi0 * Real.sin lam0 * dy +
      Real.cos phi0 * dz,
    Real.cos phi0 * Real.cos lam0 * dx + Real.cos phi0 * Real.sin lam0 * dy +
      Real.sin phi0 * dz)

/-- pymap3d's `geodetic2enu`: two `geodetic2ecef` calls — each carrying
the latitude range check — whose results are subtracted and rotated.
A `ValueError` from either call propagates (`none`). -/
noncomputable def geodetic2enu (lat lon h lat0 lon0 h0 : ℝ) : Option (ℝ × ℝ × ℝ) :=
  (geodetic2ecef lat lon h).bind fun p =>
    (geodetic2ecef lat0 lon0 h0).map fun p0 =>
      let dx := p.1 - p0.1
      let dy := p.2.1 - p0.2.1
      let dz := p.2.2 - p0.2.2
      let phi0 := lat0 * (Real.pi / 180)
      let lam0 := lon0 * (Real.pi / 180)
      (-Real.sin lam0 * dx + Real.cos lam0 * dy,
        -(Real.sin phi0 * Real.cos lam0) * dx - Real.sin phi0 * Real.sin lam0 * dy +
          Real.cos phi0 * dz,
        Real.cos phi0 * Real.cos lam0 * dx + Real.cos phi0 * Real.sin lam0 * dy +
          Real.sin phi0 * dz)

lemma geodetic2enu_of_le (lat lon h lat0 lon0 h0 : ℝ)
    (h1 : |lat| ≤ 90) (h2 : |lat0| ≤ 90) :
    geodetic2enu lat lon h lat0 lon0 h0 = some (enuCore lat lon h lat0 lon0 h0) := by
  rw [geodetic2enu, geodetic2ecef, if_pos h1, geodetic2ecef, if_pos h2]
  rfl

lemma geodetic2enu_none_of_gt (lat lon h lat0 lon0 h0 : ℝ) (h1 : 90 < |lat|) :
    geodetic2enu lat lon h lat0 lon0 h0 = none := by
  rw [geodetic2enu, geodetic2ecef, if_neg (not_le.mpr h1)]
  rfl

lemma enuCore_self (lat lon h : ℝ) : enuCore lat lon h lat lon h = (0, 0, 0) := by
  simp [enuCore]

/-- Row-wise result of the single vectorized `pm.geodetic2enu` call in
`lla2enu`, anchored at `f0`: `sanitize` raises iff any entry of the
latitude-slot array is out of range, so rows are produced only when
every row's check passes (`none` otherwise, whole-call abort). -/
noncomputable def projRows (f0 : Fix) : List Fix → Option (List Tenu)
  | [] => some []
  | f :: rest =>
    match geodetic2enu f.lon f.lat f.alt f0.lon f0.lat f0.alt, projRows f0 rest with
    | some enu, some out => some (⟨f.t, enu.1, enu.2.1, enu.2.2⟩ :: out)
    | _, _ => none

/-- Model of `lla2enu` from `src/compute_polar.py` (lines 37-43): keep the
timestamp column and project the `(longitude, latitude, altitude)`
columns with `pm.geodetic2enu`, anchored at the first row.  The source
passes the columns positionally — longitudes into pymap3d's latitude
slot and vice versa — which is modelled verbatim; pymap3d's latitude
range check therefore rejects any longitude outside `[-90, 90]`.  On an
empty array the indexing `longitudes[0]` raises, modelled as `none`. -/
noncomputable def lla2enu (track : List Fix) : Option (List Tenu) :=
  match track.head? with
  | none => none
  | some f0 => projRows f0 track

lemma projRows_of_range (f0 : Fix) (hf0 : |f0.lon| ≤ 90) (l : List Fix)
    (hr : ∀ f ∈ l, |f.lon| ≤ 90) :
    projRows f0 l = some (l.map fun f =>
      (⟨f.t, (enuCore f.lon f.lat f.alt f0.lon f0.lat f0.alt).1,
        (enuCore f.lon f.lat f.alt f0.lon f0.lat f0.alt).2.1,
        (enuCore f.lon f.lat f.alt f0.lon f0.lat f0.alt).2.2⟩ : Tenu)) := by
  induction l with
  | nil => rfl
  | cons f rest ih =>
    have h1 : |f.lon| ≤ 90 := hr f (by simp)
    have hrest := ih fun x hx => hr x (by simp [hx])
    simp only [projRows, geodetic2enu_of_le _ _ _ _ _ _ h1 hf0, hrest, List.map_cons]

lemma projRows_none_of_bad (f0 g : Fix) (hg : 90 < |g.lon|) (l : List Fix)
    (hmem : g ∈ l) :
    projRows f0 l = none := by
  induction l with
  | nil => simp at hmem
  | cons f rest ih =>
    rcases List.mem_cons.mp hmem with hfg | hrest
    · have hf : 90 < |f.lon| := hfg ▸ hg
      simp only [projRows, geodetic2enu_none_of_gt _ _ _ _ _ _ hf]
    · have htail := ih hrest
      simp only [projRows, htail]
      cases geodetic2enu f.lon f.lat f.alt f0.lon f0.lat f0.alt with
      | none => rfl
      | some enu => rfl

/-- Counterexample to C7 as stated: the one-fix track at longitude 100
is non-empty, yet the projector yields no output at all — the swapped
call feeds 100 into pymap3d's latitude slot and `sanitize` raises
`ValueError`.  The failure is therefore not confined to the empty track,
refuting both the universal success claim and "fails with EmptyTrack"
exactly on empty input. -/
theorem c7_counterexample_out_of_range :
    lla2enu [Fix.mk 5 100 45 1000 0] = none ∧
      ([Fix.mk 5 100 45 1000 0] : List Fix) ≠ [] := by
  constructor
  · have hgt : (90 : ℝ) < |(Fix.mk 5 100 45 1000 0).lon| := by
      show (90 : ℝ) < |(100 : ℝ)|
      norm_num
    have hl : lla2enu [Fix.mk 5 100 45 1000 0] =
        projRows (Fix.mk 5 100 45 1000 0) [Fix.mk 5 100 45 1000 0] := rfl
    rw [hl]
    exact projRows_none_of_bad _ _ hgt _ (by simp)
  · simp

/-- C7 (amended): the projector fails on the empty track (undefined
origin), and also fails — with pymap3d's latitude-range `ValueError`,
not the empty-track error — on any non-empty track containing a fix
whose longitude magnitude exceeds 90 (that column lands in pymap3d's
latitude slot).  On a non-empty track whose longitudes all lie in
`[-90, 90]` it yields a local track of identical length and index
correspondence, passes every timestamp through unchanged, and its first
sample's (east, north, up) is exactly `(0, 0, 0)`. -/
theorem c7_lla2enu_spec (track : List Fix) :
    (track = [] → lla2enu track = none) ∧
      (∀ g ∈ track, 90 < |g.lon| → lla2enu track = none) ∧
      ∀ f0, track.head? = some f0 → (∀ f ∈ track, |f.lon| ≤ 90) →
        ((lla2enu track).map List.length = some track.length ∧
          (∀ (i : ℕ) (g : Fix), track[i]? = some g →
            ((lla2enu track).bind fun o => (o[i]?).map Tenu.t) = some g.t) ∧
          ((lla2enu track).bind fun o => o[0]?) = some ⟨f0.t, 0, 0, 0⟩) := by
  refine ⟨?_, ?_, ?_⟩
  · intro h
    subst h
    rfl
  · intro g hg hgt
    cases track with
    | nil => simp at hg
    | cons f rest =>
      have hl : lla2enu (f :: rest) = projRows f (f :: rest) := rfl
      rw [hl]
      exact projRows_none_of_bad f g hgt (f :: rest) hg
  · intro f0 h0 hr
    cases track with
    | nil => simp at h0
    | cons f rest =>
      have hf0 : f0 = f := by simpa using h0.symm
      subst hf0
      have hf0r : |f0.lon| ≤ 90 := hr f0 (by simp)
      have hp : lla2enu (f0 :: rest) = some ((f0 :: rest).map fun x =>
          (⟨x.t, (enuCore x.lon x.lat x.alt f0.lon f0.lat f0.alt).1,
            (enuCore x.lon x.lat x.alt f0.lon f0.lat f0.alt).2.1,
            (enuCore x.lon x.lat x.alt f0.lon f0.lat f0.alt).2.2⟩ : Tenu)) := by
        have hq := projRows_of_range f0 hf0r (f0 :: rest) hr
        simpa [lla2enu] using hq
      refine ⟨by simp [hp], ?_, ?_⟩
      · intro i g hg
        simp only [hp, Option.some_bind, List.getElem?_map, hg, Option.map_some']
      · simp only [hp, Option.some_bind, List.map_cons]
        simp [enuCore_self]

/-- Witness for C7 (amended) at the concrete in-range one-fix track
`[(5, 1, 2, 3, 4)]`. -/
theorem c7_lla2enu_spec_witness :
    ([Fix.mk 5 1 2 3 4] : List Fix).head? = some (Fix.mk 5 1 2 3 4) ∧
      (∀ f ∈ ([Fix.mk 5 1 2 3 4] : List Fix), |f.lon| ≤ 90) ∧
      ((lla2enu [Fix.mk 5 1 2 3 4]).map List.length =
          some ([Fix.mk 5 1 2 3 4] : List Fix).length ∧
        ((lla2enu [Fix.mk 5 1 2 3 4]).bind fun o => (o[0]?).map Tenu.t) =
          some (Fix.mk 5 1 2 3 4).t ∧
        ((lla2enu [Fix.mk 5 1 2 3 4]).bind fun o => o[0]?) =
          some ⟨(Fix.mk 5 1 2 3 4).t, 0, 0, 0⟩) := by
  have hr : ∀ f ∈ ([Fix.mk 5 1 2 3 4] : List Fix), |f.lon| ≤ 90 := by
    intro f hf
    simp only [List.mem_singleton] at hf
    subst hf
    show |(1 : ℝ)| ≤ 90
    norm_num
  have hm := (c7_lla2enu_spec [Fix.mk 5 1 2 3 4]).2.2 (Fix.mk 5 1 2 3 4) rfl hr
  exact ⟨rfl, hr, hm.1, hm.2.1 0 (Fix.mk 5 1 2 3 4) rfl, hm.2.2⟩

/-- Numeric value of a decimal digit character. -/
def digitVal (c : Char) : ℕ := c.toNat - '0'.toNat

/-- Read exactly `n` decimal digits from the front of the character
list, returning their value and the remaining characters (the
fixed-width `\d{n}` groups of `RECORD_PATTERNS_B`). -/
def readNat : ℕ → ℕ → List Char → Option (ℕ × List Char)
  | 0, acc, cs => some (acc, cs)
  | _ + 1, _, [] => none
  | n + 1, acc, c :: cs =>
    if c.isDigit then readNat n (acc * 10 + digitVal c) cs else none

/-- Read one character satisfying `p` (the one-character groups of
`RECORD_PATTERNS_B`). -/
def readChar (p : Char → Bool) : List Char → Option (Char × List Char)
  | [] => none
  | c :: cs => if p c then some (c, cs) else none

/-- Python's `str.strip()` on a line, modelled on the character list:
whitespace removed from both ends. -/
def stripChars (cs : List Char) : List Char :=
  ((cs.dropWhile Char.isWhitespace).reverse.dropWhile Char.isWhitespace).reverse

/-- The named groups captured by `RECORD_PATTERNS_B` in
`src/convert_igc_to_npz.py` (lines 14-21) for a fix record. -/
structure RawB where
  hours : ℕ
  minutes : ℕ
  seconds : ℕ
  latDeg : ℕ
  latMin : ℕ
  latDec : ℕ
  ns : Char
  lonDeg : ℕ
  lonMin : ℕ
  lonDec : ℕ
  ew : Char
  fixc : Char
  pressure : ℕ
  altitude : ℕ
deriving DecidableEq

/-- The anchored search of `RECORD_PATTERNS_B` over a stripped line:
`B`, six time digits, `DD MM mmm [NS]` latitude, `DDD MM mmm [EW]`
longitude, an `[AV]` fix flag, then optional whitespace and two 5-digit
fields (pressure altitude, GNSS altitude).  Trailing characters are
ignored, as with `re.search` of a `^`-anchored pattern.  A line the
pattern does not match yields `none` (in the source, `search` returns
`None` and the subsequent `.groupdict()` raises `AttributeError`). -/
def parseB (cs : List Char) : Option RawB := do
  let (_, cs) ← readChar (fun c => c = 'B') cs
  let (hh, cs) ← readNat 2 0 cs
  let (mi, cs) ← readNat 2 0 cs
  let (ss, cs) ← readNat 2 0 cs
  let (laD, cs) ← readNat 2 0 cs
  let (laM, cs) ← readNat 2 0 cs
  let (laC, cs) ← readNat 3 0 cs
  let (ns, cs) ← readChar (fun c => c = 'N' || c = 'S') cs
  let (loD, cs) ← readNat 3 0 cs
  let (loM, cs) ← readNat 2 0 cs
  let (loC, cs) ← readNat 3 0 cs
  let (ew, cs) ← readChar (fun c => c = 'E' || c = 'W') cs
  let (fx, cs) ← readChar (fun c => c = 'A' || c = 'V') cs
  let (press, cs) ← readNat 5 0 (cs.dropWhile Char.isWhitespace)
  let (alt, _) ← readNat 5 0 (cs.dropWhile Char.isWhitespace)
  pure ⟨hh, mi, ss, laD, laM, laC, ns, loD, loM, loC, ew, fx, press, alt⟩

/-- Model of `minutes2degrees` from `src/convert_igc_to_npz.py` (lines 24-29):
`float(deg) + float(f'DEG.DEC') / 60`.  The decimal-minutes sub-field is
captured as exactly three digits, so the parsed string `MM.mmm` has the
exact value `mn + dec/1000`.  No hemisphere sign is applied (the `todo`
comment in the source). -/
noncomputable def minutes2degrees (deg mn dec : ℕ) : ℝ :=
  (deg : ℝ) + ((mn : ℝ) + (dec : ℝ) / 1000) / 60

/-- The fix row built by `decode_record_b` (lines 38-50) from the
captured groups and the current date context `d` (the reference
midnight, in epoch seconds): row = `[timestamp, longitude, latitude,
altitude, pressure]`.  The hemisphere characters are not consulted. -/
noncomputable def buildFix (r : RawB) (d : ℤ) : Fix :=
  { t := (d : ℝ) + ((r.hours * 3600 + r.minutes * 60 + r.seconds : ℕ) : ℝ)
    lon := minutes2degrees r.lonDeg r.lonMin r.lonDec
    lat := minutes2degrees r.latDeg r.latMin r.latDec
    alt := (r.altitude : ℝ)
    press := (r.pressure : ℝ) }

/-- Model of `decode_record_b` (lines 38-50): run the record pattern, then build
the row; a non-matching line raises in the source, here `none`. -/
noncomputable def decode_record_b (cs : List Char) (d : ℤ) : Option Fix :=
  (parseB cs).map fun r => buildFix r d

/-- Gregorian leap-year rule (as used by `datetime`). -/
def isLeap (y : ℕ) : Bool := y % 4 = 0 && (y % 100 ≠ 0 || y % 400 = 0)

/-- Days in a month (as validated by `datetime.strptime`). -/
def daysInMonth (mo y : ℕ) : ℕ :=
  if mo = 2 then (if isLeap y then 29 else 28)
  else if mo = 4 ∨ mo = 6 ∨ mo = 9 ∨ mo = 11 then 30
  else 31

/-- Days between 1970-01-01 and the given civil date (valid for the
years 1969-2068 produced by the two-digit year rule). -/
def daysFromCivil (y mo d : ℕ) : ℤ :=
  let y' := if mo ≤ 2 then y - 1 else y
  let era := y' / 400
  let yoe := y' % 400
  let mp := (mo + 9) % 12
  let doy := (153 * mp + 2) / 5 + (d - 1)
  let doe := yoe * 365 + yoe / 4 - yoe / 100 + doy
  (era * 146097 + doe : ℤ) - 719468

/-- Model of `datetime.strptime(s, '%d%m%y')` on the six-digit `DDMMYY` payload
of a date header, returning the date's midnight in epoch seconds.
Two-digit years map to 2000-2068 / 1969-1999; out-of-range day or month
raises `ValueError` in the source, modelled as `none`.  (The rarely-used
shorter `%d`/`%m` matches of `strptime` are not exercised by this
repository's headers and are not modelled.) -/
def parseDDMMYY (cs : List Char) : Option ℤ :=
  match cs with
  | [d1, d2, m1, m2, y1, y2] =>
    if (d1.isDigit && d2.isDigit && m1.isDigit && m2.isDigit && y1.isDigit && y2.isDigit) then
      let dd := digitVal d1 * 10 + digitVal d2
      let mo := digitVal m1 * 10 + digitVal m2
      let yy := digitVal y1 * 10 + digitVal y2
      let y := if yy ≤ 68 then 2000 + yy else 1900 + yy
      if 1 ≤ mo ∧ mo ≤ 12 ∧ 1 ≤ dd ∧ dd ≤ daysInMonth mo y then
        some (daysFromCivil y mo dd * 86400)
      else none
    else none
  | _ => none

/-- Model of `decode_record_h` from `src/convert_igc_to_npz.py` (lines 53-59):
`data[1:5]` selects the subtype code; only `FDTE` is consumed, parsed
with `strptime('%d%m%y')`; other subtypes return `None` (ignored).  A
`FDTE` payload `strptime` rejects raises `ValueError` in the source,
modelled as `Except.error`. -/
def decode_record_h (cs : List Char) : Except Unit (Option ℤ) :=
  if (cs.drop 1).take 4 = ['F', 'D', 'T', 'E'] then
    match parseDDMMYY (cs.drop 5) with
    | some z => .ok (some z)
    | none => .error ()
  else .ok none

/-- The distinct ways `convert_igc_to_array` aborts: `emptyLine` models
the `IndexError` of `l[0]` on an empty stripped line; `badDateHeader`
the `ValueError` of `strptime` on a malformed `FDTE` payload;
`missingDate` the `AssertionError` of `assert date is not None`;
`malformedRecord` the `AttributeError` of `.groupdict()` on a fix line
the record pattern does not match. -/
inductive ConvErr where
  | emptyLine
  | badDateHeader
  | missingDate
  | malformedRecord
deriving DecidableEq

/-- The line loop of `convert_igc_to_array` (lines 96-113): strip each
line, test its first character against the recognized record kinds,
maintain the date context from `H`/`FDTE` headers, decode `B` records
(after asserting a date context exists) and accumulate the track. -/
noncomputable def convertGo : Option ℤ → List Fix → List String → Except ConvErr (List Fix)
  | _, acc, [] => .ok acc
  | date, acc, l :: rest =>
    let s := stripChars l.data
    match s.head? with
    | none => .error .emptyLine
    | some c =>
      if c = 'H' then
        match decode_record_h s with
        | .error _ => .error .badDateHeader
        | .ok none => convertGo date acc rest
        | .ok (some z) => convertGo (some z) acc rest
      else if c = 'B' then
        match date with
        | none => .error .missingDate
        | some z =>
          match parseB s with
          | none => .error .malformedRecord
          | some r => convertGo date (acc ++ [buildFix r z]) rest
      else convertGo date acc rest

/-- Model of `convert_igc_to_array` from `src/convert_igc_to_npz.py`
(lines 96-113). -/
noncomputable def convert_igc_to_array (lines : List String) : Except ConvErr (List Fix) :=
  convertGo none [] lines

/-- C8: for a fix record accepted by the record pattern, the decoded
latitude and longitude are `deg + (min + dec/1000)/60` (minutes
reconstructed from the integer-minutes and thousandths sub-fields); the
decode is independent of the hemisphere (and fix-validity) characters —
no negation for S or W; and `DD=45, MM=30, mmm=000` decodes to exactly
`45.5`. -/
theorem c8_decode_degrees (cs : List Char) (r : RawB) (d : ℤ)
    (hp : parseB cs = some r) :
    decode_record_b cs d = some (buildFix r d) ∧
      (buildFix r d).lat = (r.latDeg : ℝ) + ((r.latMin : ℝ) + (r.latDec : ℝ) / 1000) / 60 ∧
      (buildFix r d).lon = (r.lonDeg : ℝ) + ((r.lonMin : ℝ) + (r.lonDec : ℝ) / 1000) / 60 ∧
      (∀ r' : RawB, r'.hours = r.hours → r'.minutes = r.minutes → r'.seconds = r.seconds →
        r'.latDeg = r.latDeg → r'.latMin = r.latMin → r'.latDec = r.latDec →
        r'.lonDeg = r.lonDeg → r'.lonMin = r.lonMin → r'.lonDec = r.lonDec →
        r'.pressure = r.pressure → r'.altitude = r.altitude →
        buildFix r' d = buildFix r d) ∧
      minutes2degrees 45 30 0 = 45.5 := by
  refine ⟨by simp [decode_record_b, hp], rfl, rfl, ?_, by norm_num [minutes2degrees]⟩
  intro r' h1 h2 h3 h4 h5 h6 h7 h8 h9 h10 h11
  simp [buildFix, minutes2degrees, h1, h2, h3, h4, h5, h6, h7, h8, h9, h10, h11]

/-- Witness for C8 at the concrete record
`B1100004530000N00530000EA0100001200` (11:00:00, 45°30.000' N,
5°30.000' E, pressure 01000, altitude 01200), with date context `0`,
including the hemisphere-flip instance `N/E ↦ S/W`. -/
theorem c8_decode_degrees_witness :
    parseB ("B1100004530000N00530000EA0100001200").data =
        some (RawB.mk 11 0 0 45 30 0 'N' 5 30 0 'E' 'A' 1000 1200) ∧
      (buildFix (RawB.mk 11 0 0 45 30 0 'N' 5 30 0 'E' 'A' 1000 1200) 0).lat =
        ((45 : ℕ) : ℝ) + (((30 : ℕ) : ℝ) + ((0 : ℕ) : ℝ) / 1000) / 60 ∧
      buildFix (RawB.mk 11 0 0 45 30 0 'S' 5 30 0 'W' 'A' 1000 1200) 0 =
        buildFix (RawB.mk 11 0 0 45 30 0 'N' 5 30 0 'E' 'A' 1000 1200) 0 ∧
      minutes2degrees 45 30 0 = 45.5 := by
  have hp : parseB ("B1100004530000N00530000EA0100001200").data =
      some (RawB.mk 11 0 0 45 30 0 'N' 5 30 0 'E' 'A' 1000 1200) := by decide
  have hm := c8_decode_degrees ("B1100004530000N00530000EA0100001200").data
    (RawB.mk 11 0 0 45 30 0 'N' 5 30 0 'E' 'A' 1000 1200) 0 hp
  exact ⟨hp, hm.2.1,
    hm.2.2.2.1 (RawB.mk 11 0 0 45 30 0 'S' 5 30 0 'W' 'A' 1000 1200)
      rfl rfl rfl rfl rfl rfl rfl rfl rfl rfl rfl,
    hm.2.2.2.2⟩

/-- Counterexample to C5: a three-line input whose second line is a fix
record truncated mid-field.  The claim says the bad line is skipped and a
2-fix track results; in the code `RECORD_PATTERNS_B.search` returns
`None` and `.groupdict()` raises `AttributeError`, aborting the whole
conversion, so the result is an error, not a track. -/
theorem c5_counterexample_malformed_aborts :
    convert_igc_to_array
        ["HFDTE010100", "B1100004530000N00530", "B1100004530000N00530000EA0100001200"] =
      .error .malformedRecord := by
  rfl

/-- C5 (amended): a fix line that the record pattern rejects is not
skipped; once a date context exists, encountering it aborts the whole
conversion with the malformed-record error (the `AttributeError` in the
source), whatever was decoded before and whatever follows. -/
theorem c5_malformed_aborts_amended (d : ℤ) (acc : List Fix) (bad : String)
    (rest : List String)
    (hB : (stripChars bad.data).head? = some 'B')
    (hfail : parseB (stripChars bad.data) = none) :
    convertGo (some d) acc (bad :: rest) = .error .malformedRecord := by
  simp only [convertGo]
  rw [hB]
  simp [hfail]

/-- Witness for C5 (amended) at the concrete truncated record `B12`. -/
theorem c5_malformed_aborts_amended_witness :
    (stripChars ("B12").data).head? = some 'B' ∧
      parseB (stripChars ("B12").data) = none ∧
      convertGo (some 0) [] ["B12"] = .error .malformedRecord :=
  ⟨by decide, by decide,
    c5_malformed_aborts_amended 0 [] ("B12") [] (by decide) (by decide)⟩

lemma convertGo_missing_date (b : String) (rest : List String)
    (hB : (stripChars b.data).head? = some 'B') (pre : List String) :
    ∀ acc : List Fix,
      (∀ l ∈ pre, stripChars l.data ≠ [] ∧
        ((stripChars l.data).head? = some 'H' →
          decode_record_h (stripChars l.data) = .ok none)) →
      convertGo none acc (pre ++ b :: rest) = .error .missingDate := by
  induction pre with
  | nil =>
    intro acc _
    simp only [List.nil_append, convertGo]
    rw [hB]
    simp
  | cons l pre ih =>
    intro acc hpre
    have hl := hpre l (by simp)
    cases hhead : (stripChars l.data).head? with
    | none => exact absurd (List.head?_eq_none_iff.mp hhead) hl.1
    | some c =>
      have hrest : ∀ x ∈ pre, stripChars x.data ≠ [] ∧
          ((stripChars x.data).head? = some 'H' →
            decode_record_h (stripChars x.data) = .ok none) := by
        intro x hx
        exact hpre x (by simp [hx])
      simp only [List.cons_append, convertGo]
      rw [hhead]
      by_cases hcH : c = 'H'
      · subst hcH
        rw [hl.2 hhead]
        simpa using ih acc hrest
      · by_cases hcB : c = 'B'
        · subst hcB
          simp [hcH]
        · simpa [hcH, hcB] using ih acc hrest

/-- C6 (amended): if every line before the offending fix record is
non-empty once stripped and is not a date-setting or date-raising `H`
record, then a fix record with no preceding date header aborts the
conversion with the missing-date error (the `assert date is not None`),
and no partial track is returned.  (Without the proviso, a different
abort may fire first — see the counterexample.) -/
theorem c6_missing_date_amended (pre : List String) (b : String) (rest : List String)
    (hpre : ∀ l ∈ pre, stripChars l.data ≠ [] ∧
      ((stripChars l.data).head? = some 'H' →
        decode_record_h (stripChars l.data) = .ok none))
    (hB : (stripChars b.data).head? = some 'B') :
    convert_igc_to_array (pre ++ b :: rest) = .error .missingDate :=
  convertGo_missing_date b rest hB pre [] hpre

/-- Witness for C6 (amended): a lone fix record with no date header. -/
theorem c6_missing_date_amended_witness :
    (∀ l ∈ ([] : List String), stripChars l.data ≠ [] ∧
        ((stripChars l.data).head? = some 'H' →
          decode_record_h (stripChars l.data) = .ok none)) ∧
      (stripChars ("B1").data).head? = some 'B' ∧
      convert_igc_to_array ["B1"] = .error .missingDate :=
  ⟨by simp, by decide, c6_missing_date_amended [] ("B1") [] (by simp) (by decide)⟩

/-- Counterexample to C6 as stated: in the stream `["", "B…"]` a fix
record is preceded by no date header, yet the conversion aborts with the
empty-line `IndexError` (from `l[0]` in the record-kind filter), not
with the missing-date error, because the empty line is hit first. -/
theorem c6_counterexample_empty_line_first :
    convert_igc_to_array ["", "B1100004530000N00530000EA0100001200"] =
        .error .emptyLine ∧
      convert_igc_to_array ["", "B1100004530000N00530000EA0100001200"] ≠
        .error .missingDate := by
  constructor
  · rfl
  · intro h
    rw [show convert_igc_to_array ["", "B1100004530000N00530000EA0100001200"] =
        .error .emptyLine from rfl] at h
    simp at h

lemma convertGo_no_empty (lines : List String)
    (hne : ∀ l ∈ lines, stripChars l.data ≠ []) :
    ∀ (date : Option ℤ) (acc : List Fix),
      convertGo date acc lines ≠ .error .emptyLine := by
  induction lines with
  | nil =>
    intro date acc
    simp [convertGo]
  | cons l rest ih =>
    intro date acc
    have hl := hne l (by simp)
    have hrest : ∀ x ∈ rest, stripChars x.data ≠ [] := fun x hx => hne x (by simp [hx])
    cases hhead : (stripChars l.data).head? with
    | none => exact absurd (List.head?_eq_none_iff.mp hhead) hl
    | some c =>
      simp only [convertGo]
      rw [hhead]
      by_cases hcH : c = 'H'
      · subst hcH
        simp only [if_pos rfl]
        cases hdec : decode_record_h (stripChars l.data) with
        | error e => simp
        | ok o =>
          cases o with
          | none => simpa using ih hrest date acc
          | some z => simpa using ih hrest (some z) acc
      · by_cases hcB : c = 'B'
        · subst hcB
          simp only [hcH, if_false, if_pos rfl]
          cases date with
          | none => simp
          | some z =>
            cases hp : parseB (stripChars l.data) with
            | none => simp
            | some r => simpa using ih hrest (some z) (acc ++ [buildFix r z])
        · simpa [hcH, hcB] using ih hrest date acc

/-- C10: track assembly crashes on a whitespace-only line — the
record-kind test indexes the first character of the stripped line — and
conversely the empty-line abort is impossible whenever every stripped
input line is non-empty. -/
theorem c10_empty_line_abort :
    convert_igc_to_array [" "] = .error .emptyLine ∧
      ∀ lines : List String, (∀ l ∈ lines, stripChars l.data ≠ []) →
        convert_igc_to_array lines ≠ .error .emptyLine := by
  refine ⟨rfl, ?_⟩
  intro lines hne
  exact convertGo_no_empty lines hne none []

/-- Witness for C10 on the concrete stream `["A1"]`. -/
theorem c10_empty_line_abort_witness :
    (∀ l ∈ (["A1"] : List String), stripChars l.data ≠ []) ∧
      convert_igc_to_array ["A1"] ≠ .error .emptyLine :=
  ⟨by decide, c10_empty_line_abort.2 ["A1"] (by decide)⟩

/-- Python slicing `a[:e]` for an arbitrary `int` bound `e` (negative
bounds count from the end, clipped at zero). -/
def pyTake (e : ℤ) (l : List Tenu) : List Tenu :=
  if 0 ≤ e then l.take e.toNat else l.take (l.length - (-e).toNat)

/-- Python slicing `a[s:]` for an arbitrary `int` bound `s`. -/
def pyDrop (s : ℤ) (l : List Tenu) : List Tenu :=
  if 0 ≤ s then l.drop s.toNat else l.drop (l.length - (-s).toNat)

/-- Model of `if args.end: tenu = tenu[:args.end]` in `main`
(`src/compute_polar.py`, lines 124-125): Python's falsy test skips both
`None` and `0`. -/
def sliceStop (stop : Option ℤ) (l : List Tenu) : List Tenu :=
  match stop with
  | none => l
  | some e => if e = 0 then l else pyTake e l

/-- Model of `if args.start: tenu = tenu[args.start:]` in `main` (lines 126-127). -/
def sliceStart (start : Option ℤ) (l : List Tenu) : List Tenu :=
  match start with
  | none => l
  | some s => if s = 0 then l else pyDrop s l

/-- Model of `compute_polar` from `src/compute_polar.py` (lines 79-82):
differentiate, then filter. -/
noncomputable def compute_polar (tenu : List Tenu) : List Speed :=
  cleans (tenu2speeds tenu)

/-- The processing pipeline of `main` in `src/compute_polar.py`
(lines 112-131), from the decoded fix array: project with `lla2enu`,
smooth with the hard-coded window `k = 100`, apply the optional
end-then-start slicing, then `compute_polar`.  Any raised error
(empty track, empty convolution input) is caught by the surrounding
`except`, modelled as `none`. -/
noncomputable def main_pipeline (tlla : List Fix) (start stop : Option ℤ) :
    Option (List Speed) :=
  match lla2enu tlla with
  | none => none
  | some tenu =>
    match smooth tenu 100 with
    | none => none
    | some sm => some (compute_polar (sliceStart start (sliceStop stop sm)))

/-- The same pipeline started from raw IGC lines (`main` with an `.igc`
input decodes via `convert_igc_to_array` first; a decode error aborts). -/
noncomputable def main_pipeline_igc (lines : List String) (start stop : Option ℤ) :
    Option (List Speed) :=
  match convert_igc_to_array lines with
  | .error _ => none
  | .ok tlla => main_pipeline tlla start stop

/-- Modelled from the spec: the pipeline as claim C9 states it, with the
optional start/end restriction applied to the LocalTrack *before*
smoothing (spec 4.7).  Kept solely for comparison against
`main_pipeline`, which follows the code. -/
noncomputable def main_pipeline_spec_order (tlla : List Fix) (start stop : Option ℤ) :
    Option (List Speed) :=
  match lla2enu tlla with
  | none => none
  | some tenu =>
    match smooth (sliceStart start (sliceStop stop tenu)) 100 with
    | none => none
    | some sm => some (compute_polar sm)

/-- C9 (amended): the pipeline is the strict composition decode →
project → smooth → slice → differentiate → filter, each stage consuming
its predecessor's full output; but the optional start/end restriction is
applied to the *smoothed* track, after smoothing, not to the LocalTrack
before smoothing. -/
theorem c9_pipeline_order_amended (tlla : List Fix) (start stop : Option ℤ)
    (lines : List String) :
    main_pipeline tlla start stop =
        ((lla2enu tlla).bind fun tenu => (smooth tenu 100).map fun sm =>
          cleans (tenu2speeds (sliceStart start (sliceStop stop sm)))) ∧
      main_pipeline_igc lines start stop =
        (match convert_igc_to_array lines with
          | .error _ => none
          | .ok t => main_pipeline t start stop) := by
  constructor
  · rw [main_pipeline]
    cases lla2enu tlla with
    | none => rfl
    | some tenu =>
      cases hsm : smooth tenu 100 with
      | none => simp [hsm]
      | some sm => simp [hsm, compute_polar]
  · rfl

lemma movingAvg_replicate_zero (n k : ℕ) (hk : k ≤ n) :
    movingAvg (List.replicate n (0:ℝ)) k = List.replicate (n - k + 1) 0 := by
  rw [movingAvg, if_pos (by simpa using hk), List.length_replicate]
  have hwin : ∀ i : ℕ, (((List.replicate n (0:ℝ)).drop i).take k).sum = 0 := by
    intro i
    simp [List.drop_replicate, List.take_replicate, List.sum_replicate]
  simp only [hwin, zero_div]
  rw [List.map_const', List.length_range]

lemma lla2enu_const_pos (track : List Fix) (f0 : Fix) (h0 : track.head? = some f0)
    (hf0 : |f0.lon| ≤ 90)
    (hmem : ∀ f ∈ track, f.lon = f0.lon ∧ f.lat = f0.lat ∧ f.alt = f0.alt) :
    lla2enu track = some (track.map fun f => (⟨f.t, 0, 0, 0⟩ : Tenu)) := by
  cases track with
  | nil => simp at h0
  | cons g rest =>
    have hg : f0 = g := by simpa using h0.symm
    subst hg
    have hr : ∀ f ∈ (f0 :: rest), |f.lon| ≤ 90 := by
      intro f hf
      rw [(hmem f hf).1]
      exact hf0
    have hq := projRows_of_range f0 hf0 (f0 :: rest) hr
    have hl : lla2enu (f0 :: rest) = projRows f0 (f0 :: rest) := rfl
    rw [hl, hq]
    congr 1
    apply List.map_congr_left
    intro f hf
    obtain ⟨h1, h2, h3⟩ := hmem f hf
    simp [h1, h2, h3, enuCore_self]

/-- Counterexample to C9: on the 102-fix track at a constant position
with timestamps 0..101 and the configuration `end = 100`, the code's
pipeline (slice after smoothing) returns two speed samples, while the
claimed order (restrict the LocalTrack before smoothing) would return
none of them — the two sides differ. -/
theorem c9_counterexample_slice_order :
    main_pipeline ((List.range 102).map fun i : ℕ => Fix.mk (i : ℝ) 10 45 1000 0)
        none (some 100) ≠
      main_pipeline_spec_order ((List.range 102).map fun i : ℕ => Fix.mk (i : ℝ) 10 45 1000 0)
        none (some 100) := by
  set T : List Fix := (List.range 102).map fun i : ℕ => Fix.mk (i : ℝ) 10 45 1000 0 with hT
  have hhead : T.head? = some (Fix.mk (0 : ℝ) 10 45 1000 0) := by
    rw [hT, show (102:ℕ) = 101 + 1 from rfl, List.range_succ_eq_map]
    simp
  have hmem : ∀ f ∈ T, f.lon = (Fix.mk (0 : ℝ) 10 45 1000 0).lon ∧
      f.lat = (Fix.mk (0 : ℝ) 10 45 1000 0).lat ∧
      f.alt = (Fix.mk (0 : ℝ) 10 45 1000 0).alt := by
    intro f hf
    rw [hT, List.mem_map] at hf
    obtain ⟨i, _, rfl⟩ := hf
    exact ⟨rfl, rfl, rfl⟩
  have hlla : lla2enu T = some (T.map fun f => (⟨f.t, 0, 0, 0⟩ : Tenu)) :=
    lla2enu_const_pos T _ hhead (by norm_num : |(10 : ℝ)| ≤ 90) hmem
  set R : List Tenu := T.map fun f => (⟨f.t, 0, 0, 0⟩ : Tenu) with hR
  have hTlen : T.length = 102 := by simp [hT]
  have hRlen : R.length = 102 := by simp [hR, hTlen]
  have hchan : ∀ g : Tenu → ℝ, (∀ f : Fix, g ⟨f.t, 0, 0, 0⟩ = 0) →
      R.map g = List.replicate 102 (0:ℝ) := by
    intro g hg
    rw [hR, List.map_map]
    have hco : (g ∘ fun f : Fix => (⟨f.t, 0, 0, 0⟩ : Tenu)) = fun _ : Fix => (0:ℝ) := by
      funext f
      exact hg f
    rw [hco, List.map_const', hTlen]
  have hcE : R.map Tenu.e = List.replicate 102 (0:ℝ) := hchan _ fun _ => rfl
  have hcN : R.map Tenu.n = List.replicate 102 (0:ℝ) := hchan _ fun _ => rfl
  have hcU : R.map Tenu.u = List.replicate 102 (0:ℝ) := hchan _ fun _ => rfl
  have hTlist_len : (movingAvg (R.map Tenu.t) 100).length = 3 := by
    rw [movingAvg_length_of_le _ _ (by simp [hRlen])]
    simp [hRlen]
  obtain ⟨p, q, w, hpqw⟩ := List.length_eq_three.mp hTlist_len
  have hsm : smooth R 100 =
      some [⟨p, 0, 0, 0⟩, ⟨q, 0, 0, 0⟩, ⟨w, 0, 0, 0⟩] := by
    rw [smooth, if_neg (by simp [hRlen])]
    rw [hcE, hcN, hcU, movingAvg_replicate_zero 102 100 (by omega), hpqw]
    rw [show List.replicate 3 (0:ℝ) = [0, 0, 0] from rfl]
    simp [zip4]
  have hLHS : main_pipeline T none (some 100) = some [Speed.mk 0 0, Speed.mk 0 0] := by
    rw [main_pipeline]
    simp only [hlla, hsm]
    rw [show sliceStop (some 100) [(⟨p, 0, 0, 0⟩ : Tenu), ⟨q, 0, 0, 0⟩, ⟨w, 0, 0, 0⟩] =
        [(⟨p, 0, 0, 0⟩ : Tenu), ⟨q, 0, 0, 0⟩, ⟨w, 0, 0, 0⟩] by
      simp [sliceStop, pyTake]]
    rw [show sliceStart none [(⟨p, 0, 0, 0⟩ : Tenu), ⟨q, 0, 0, 0⟩, ⟨w, 0, 0, 0⟩] =
        [(⟨p, 0, 0, 0⟩ : Tenu), ⟨q, 0, 0, 0⟩, ⟨w, 0, 0, 0⟩] from rfl]
    rw [compute_polar]
    rw [show tenu2speeds [(⟨p, 0, 0, 0⟩ : Tenu), ⟨q, 0, 0, 0⟩, ⟨w, 0, 0, 0⟩] =
        [Speed.mk 0 0, Speed.mk 0 0] by
      simp [tenu2speeds, Real.sqrt_zero]]
    rw [cleans_eq_filter]
    norm_num [List.filter]
  have hslice2 : sliceStart none (sliceStop (some 100) R) =
      (List.range 100).map fun i : ℕ => (⟨(i : ℝ), 0, 0, 0⟩ : Tenu) := by
    have h100 : sliceStop (some 100) R = R.take 100 := by
      simp [sliceStop, pyTake]
    rw [show ∀ l : List Tenu, sliceStart none l = l from fun _ => rfl, h100, hR, hT,
      List.map_map, ← List.map_take, List.take_range]
    simp [Function.comp]
  set R2 : List Tenu := (List.range 100).map fun i : ℕ => (⟨(i : ℝ), 0, 0, 0⟩ : Tenu) with hR2
  have hR2len : R2.length = 100 := by simp [hR2]
  have hchan2 : ∀ g : Tenu → ℝ, (∀ x : ℝ, g ⟨x, 0, 0, 0⟩ = 0) →
      R2.map g = List.replicate 100 (0:ℝ) := by
    intro g hg
    rw [hR2, List.map_map]
    have hco : (g ∘ fun i : ℕ => (⟨(i : ℝ), 0, 0, 0⟩ : Tenu)) = fun _ : ℕ => (0:ℝ) := by
      funext i
      exact hg _
    rw [hco, List.map_const', List.length_range]
  have hc2E : R2.map Tenu.e = List.replicate 100 (0:ℝ) := hchan2 _ fun _ => rfl
  have hc2N : R2.map Tenu.n = List.replicate 100 (0:ℝ) := hchan2 _ fun _ => rfl
  have hc2U : R2.map Tenu.u = List.replicate 100 (0:ℝ) := hchan2 _ fun _ => rfl
  have hT2len : (movingAvg (R2.map Tenu.t) 100).length = 1 := by
    rw [movingAvg_length_of_le _ _ (by simp [hR2len])]
    simp [hR2len]
  obtain ⟨w2, hw2⟩ := List.length_eq_one.mp hT2len
  have hsm2 : smooth R2 100 = some [⟨w2, 0, 0, 0⟩] := by
    rw [smooth, if_neg (by simp [hR2len])]
    rw [hc2E, hc2N, hc2U, movingAvg_replicate_zero 100 100 (by omega), hw2]
    rw [show List.replicate 1 (0:ℝ) = [0] from rfl]
    simp [zip4]
  have hRHS : main_pipeline_spec_order T none (some 100) = some [] := by
    rw [main_pipeline_spec_order]
    simp only [hlla]
    rw [hslice2]
    simp only [← hR2, hsm2]
    rfl
  rw [hLHS, hRHS]
  simp

end FlightPolar
